import Mathlib

/-!
Shallow embedding of the EDINET viewer's query-and-filter engine
(`db_helper.py` and the Streamlit pages `03_Compare.py`, `04_Screening.py`,
`05_TextBlocks.py`).  SQLite tables are embedded as Lean lists of records,
SQL queries as list operations, and the pandas/numpy numeric cells as the
inductive `FVal` below (a SQL `NULL` is read by `pandas.read_sql_query`
as a float `NaN`; numpy division can produce signed infinities).
-/

namespace EdinetViewer

set_option maxRecDepth 8000

/-- Value of one numeric dataframe cell: `nan` (the pandas image of SQL
`NULL`, and the result of invalid arithmetic), a signed infinity (`inf true`
is `+inf`), or a finite value, modelled as a rational. -/
inductive FVal where
  | nan : FVal
  | inf : Bool → FVal
  | num : ℚ → FVal
deriving DecidableEq, Repr

/-- IEEE-style division as numpy performs it elementwise: `NaN` propagates,
a zero denominator with a nonzero finite numerator gives a signed infinity,
`0/0` gives `NaN`; it never raises (total function). -/
def FVal.fdiv : FVal → FVal → FVal
  | .nan, _ => .nan
  | _, .nan => .nan
  | .inf _, .inf _ => .nan
  | .inf s, .num b => if b < 0 then .inf (!s) else .inf s
  | .num _, .inf _ => .num 0
  | .num a, .num b =>
      if b = 0 then (if a = 0 then .nan else .inf (0 < a)) else .num (a / b)

/-- Multiplication by a positive finite constant (used for `* 100` and the
`/ 1e8` oku-yen scaling, the latter as multiplication by `1/1e8`): `NaN` and
infinities are preserved, exactly as in numpy for a positive scalar. -/
def FVal.scale (c : ℚ) : FVal → FVal
  | .nan => .nan
  | .inf s => .inf s
  | .num a => .num (c * a)

/-- Floor of a rational as an integer, computed on the numerator and the
(positive) denominator with Euclidean division, so it evaluates inside the
kernel. -/
def qfloor (q : ℚ) : ℤ := q.num / (q.den : ℤ)

/-- Round half to even on rationals (the tie-breaking numpy's `round`
uses): the nearest integer, ties going to the even neighbour. -/
def rhe (q : ℚ) : ℤ :=
  if q - (qfloor q : ℚ) = 1 / 2
  then (if qfloor q % 2 = 0 then qfloor q else qfloor q + 1)
  else qfloor (q + 1 / 2)

/-- Pandas `.round(1)`: round a finite value to one decimal, keep `NaN` and
infinities. -/
def FVal.round1 : FVal → FVal
  | .nan => .nan
  | .inf s => .inf s
  | .num a => .num ((rhe (a * 10) : ℚ) / 10)

/-- IEEE `<=` as pandas comparisons evaluate it: any comparison against
`NaN` is `false`. -/
def FVal.fle : FVal → FVal → Bool
  | .nan, _ => false
  | _, .nan => false
  | .inf s, .inf t => !s || t
  | .inf s, .num _ => !s
  | .num _, .inf t => t
  | .num a, .num b => a ≤ b

/-- IEEE `<` ; any comparison against `NaN` is `false`. -/
def FVal.flt : FVal → FVal → Bool
  | .nan, _ => false
  | _, .nan => false
  | .inf s, .inf t => !s && t
  | .inf s, .num _ => !s
  | .num _, .inf t => t
  | .num a, .num b => a < b

/-- Python `abs`: `abs(nan) = nan`, `abs(±inf) = +inf`. -/
def FVal.fabs : FVal → FVal
  | .nan => .nan
  | .inf _ => .inf true
  | .num a => .num |a|

/-- Holds of a finite (non-`NaN`, non-infinite) cell. -/
def FVal.isFinite : FVal → Bool
  | .num _ => true
  | _ => false

/-- Row of the `v_key_financials` view (one per
`(sec_code, period_end, is_consolidated)`): the monetary fields are nullable
numerics in yen, hence `FVal` cells after `read_sql_query`. -/
structure KFRow where
  sec_code : String
  filer_name : String
  period_end : String
  is_consolidated : Nat
  sales : FVal
  operating_income : FVal
  ordinary_income : FVal
  net_income : FVal
  total_assets : FVal
  net_assets : FVal
  operating_cf : FVal
  investing_cf : FVal
  financing_cf : FVal
deriving DecidableEq, Repr

/-- Oku-yen display scaling `col / 1e8` of `04_Screening.py` line 34. -/
def oku (v : FVal) : FVal := FVal.scale (1 / 100000000) v

/-- Derived column `sales_oku`. -/
def salesOku (r : KFRow) : FVal := oku r.sales

/-- Derived column `operating_income_oku`. -/
def opIncomeOku (r : KFRow) : FVal := oku r.operating_income

/-- Derived column `net_income_oku`. -/
def netIncomeOku (r : KFRow) : FVal := oku r.net_income

/-- Derived column `total_assets_oku`. -/
def totalAssetsOku (r : KFRow) : FVal := oku r.total_assets

/-- Derived column `net_assets_oku`. -/
def netAssetsOku (r : KFRow) : FVal := oku r.net_assets

/-- Source name `equity_ratio` (renamed for Lean):
`(net_assets / total_assets * 100).round(1)`, `04_Screening.py` lines 37-39. -/
def equityRatio (r : KFRow) : FVal :=
  FVal.round1 (FVal.scale 100 (FVal.fdiv r.net_assets r.total_assets))

/-- Source name `op_margin`:
`(operating_income / sales * 100).round(1)`, `04_Screening.py` lines 42-44. -/
def opMargin (r : KFRow) : FVal :=
  FVal.round1 (FVal.scale 100 (FVal.fdiv r.operating_income r.sales))

/-- Strict lexicographic order on character lists, comparing code points —
the order SQLite's default text collation (bytewise over UTF-8) induces on
the strings stored here. -/
def lexLt : List Char → List Char → Bool
  | _, [] => false
  | [], _ :: _ => true
  | a :: as, b :: bs =>
    if a.toNat < b.toNat then true
    else if b.toNat < a.toNat then false
    else lexLt as bs

/-- SQLite text `<`. -/
def strLt (a b : String) : Bool := lexLt a.data b.data

/-- SQLite text `<=` (the negation of the converse strict comparison). -/
def strLe (a b : String) : Bool := !(lexLt b.data a.data)

/-- SQL aggregate `MAX` over a list of (non-null) strings, as the CTE
`latest` of `get_screening_data` computes `MAX(period_end)`: `none` on the
empty group. -/
def maxStr (l : List String) : Option String :=
  l.foldl
    (fun acc p =>
      match acc with
      | none => some p
      | some m => if strLt m p then some p else some m)
    none

/-- Period ends of one company's `is_consolidated = 1` rows (the group the
CTE `latest` of `db_helper.get_screening_data` aggregates). -/
def consolidatedPeriods (store : List KFRow) (c : String) : List String :=
  (store.filter (fun r => r.is_consolidated == 1 && r.sec_code == c)).map KFRow.period_end

/-- Embeds the SQL of `db_helper.get_screening_data` (lines 252-266): the CTE
groups `is_consolidated = 1` rows by `sec_code` taking `MAX(period_end)`, and
the inner join keeps exactly the `is_consolidated = 1` rows whose
`(sec_code, period_end)` hits its group's maximum.  The trailing
`ORDER BY sec_code` only permutes the result and is dropped here (claims
about this query are order-independent); the filter keeps store order. -/
def get_screening_data (store : List KFRow) : List KFRow :=
  store.filter
    (fun v => v.is_consolidated == 1 &&
      maxStr (consolidatedPeriods store v.sec_code) == some v.period_end)

/-- KeyFinancial uniqueness invariant: for a given company at most one row
per `(period_end, is_consolidated)` pair. -/
def KFInvariant (store : List KFRow) : Prop :=
  store.Pairwise
    (fun r s => ¬(r.sec_code = s.sec_code ∧ r.period_end = s.period_end ∧
      r.is_consolidated = s.is_consolidated))

/-- Screening bounds: the twelve optional `st.number_input` values of
`04_Screening.py` (all default to `None`), in oku-yen for the monetary
metrics and percent for the two ratios. -/
structure Bounds where
  sales_min : Option ℚ := none
  sales_max : Option ℚ := none
  op_min : Option ℚ := none
  op_max : Option ℚ := none
  ni_min : Option ℚ := none
  ni_max : Option ℚ := none
  eq_min : Option ℚ := none
  eq_max : Option ℚ := none
  margin_min : Option ℚ := none
  margin_max : Option ℚ := none
  ta_min : Option ℚ := none
  ta_max : Option ℚ := none
deriving DecidableEq, Repr

/-- All-unset bounds (every `number_input` left empty). -/
def noBounds : Bounds := {}

/-- Check of one optional lower bound as pandas evaluates `col >= v`
(`NaN` fails, an unset bound passes everything). -/
def geOK (bound : Option ℚ) (v : FVal) : Bool :=
  match bound with
  | none => true
  | some q => FVal.fle (.num q) v

/-- Check of one optional upper bound as pandas evaluates `col <= v`. -/
def leOK (bound : Option ℚ) (v : FVal) : Bool :=
  match bound with
  | none => true
  | some q => FVal.fle v (.num q)

/-- One `if bound is not None: filtered = filtered[col >= bound]` step. -/
def optGe (bound : Option ℚ) (col : KFRow → FVal) (rows : List KFRow) : List KFRow :=
  match bound with
  | none => rows
  | some q => rows.filter (fun r => FVal.fle (.num q) (col r))

/-- One `if bound is not None: filtered = filtered[col <= bound]` step. -/
def optLe (bound : Option ℚ) (col : KFRow → FVal) (rows : List KFRow) : List KFRow :=
  match bound with
  | none => rows
  | some q => rows.filter (fun r => FVal.fle (col r) (.num q))

/-- Sequential filter application of `04_Screening.py` lines 96-132, in
source order (sales, operating income, net income, equity ratio, operating
margin, total assets; min before max). -/
def applyFilters (b : Bounds) (rows : List KFRow) : List KFRow :=
  optLe b.ta_max totalAssetsOku
    (optGe b.ta_min totalAssetsOku
      (optLe b.margin_max opMargin
        (optGe b.margin_min opMargin
          (optLe b.eq_max equityRatio
            (optGe b.eq_min equityRatio
              (optLe b.ni_max netIncomeOku
                (optGe b.ni_min netIncomeOku
                  (optLe b.op_max opIncomeOku
                    (optGe b.op_min opIncomeOku
                      (optLe b.sales_max salesOku
                        (optGe b.sales_min salesOku rows)))))))))))

/-- Conjunction of all set bounds on one row (pandas comparison semantics,
so a `NaN` cell fails any set bound). -/
def satisfiesBounds (b : Bounds) (r : KFRow) : Bool :=
  geOK b.sales_min (salesOku r) && leOK b.sales_max (salesOku r) &&
  geOK b.op_min (opIncomeOku r) && leOK b.op_max (opIncomeOku r) &&
  geOK b.ni_min (netIncomeOku r) && leOK b.ni_max (netIncomeOku r) &&
  geOK b.eq_min (equityRatio r) && leOK b.eq_max (equityRatio r) &&
  geOK b.margin_min (opMargin r) && leOK b.margin_max (opMargin r) &&
  geOK b.ta_min (totalAssetsOku r) && leOK b.ta_max (totalAssetsOku r)

/-- The no-data exclusion `filtered.dropna(subset=["sales"])`
(`04_Screening.py` line 135): drop rows whose raw `sales` is `NaN`. -/
def dropNoSales (rows : List KFRow) : List KFRow :=
  rows.filter (fun r => !(r.sales == FVal.nan))

/-- Caller-selected sort metric (the six entries of `sort_map`,
`04_Screening.py` lines 151-158, all descending). -/
inductive SortKey where
  | bySales
  | byOpIncome
  | byNetIncome
  | byEquityRatio
  | byOpMargin
  | byTotalAssets
deriving DecidableEq, Repr

/-- Column the selected `sort_map` entry sorts by. -/
def sortCol : SortKey → KFRow → FVal
  | .bySales => salesOku
  | .byOpIncome => opIncomeOku
  | .byNetIncome => netIncomeOku
  | .byEquityRatio => equityRatio
  | .byOpMargin => opMargin
  | .byTotalAssets => totalAssetsOku

/-- Admissible adjacency for
`sort_values(key, ascending=False, na_position="last")`: `a` may precede `b`
iff `b` is `NaN`, or neither is `NaN` and `a` is at least `b`. -/
def descOK (a b : FVal) : Bool :=
  match b with
  | .nan => true
  | _ =>
    match a with
    | .nan => false
    | _ => FVal.fle b a

/-- Sort relation on rows for the selected metric. -/
def screenRel (k : SortKey) (a b : KFRow) : Prop :=
  descOK (sortCol k a) (sortCol k b) = true

instance (k : SortKey) : DecidableRel (screenRel k) :=
  fun a b => by unfold screenRel; infer_instance

/-- Whole screening pipeline of `04_Screening.py`: filters (lines 96-132),
no-data exclusion (line 135), then the descending sort with nulls last
(line 161).  Pandas' unstable `sort_values` is modelled by `insertionSort`
over the same ordering (the claims do not concern tie order). -/
def screeningResult (b : Bounds) (k : SortKey) (rows : List KFRow) : List KFRow :=
  (dropNoSales (applyFilters b rows)).insertionSort (screenRel k)

/-- The six bounded screening metrics (for the implicit null-exclusion
claim). -/
inductive BMetric where
  | mSales
  | mOpIncome
  | mNetIncome
  | mEquityRatio
  | mOpMargin
  | mTotalAssets
deriving DecidableEq, Repr

/-- Min bound the `Bounds` assignment sets for a metric. -/
def bmin (b : Bounds) : BMetric → Option ℚ
  | .mSales => b.sales_min
  | .mOpIncome => b.op_min
  | .mNetIncome => b.ni_min
  | .mEquityRatio => b.eq_min
  | .mOpMargin => b.margin_min
  | .mTotalAssets => b.ta_min

/-- Max bound the `Bounds` assignment sets for a metric. -/
def bmax (b : Bounds) : BMetric → Option ℚ
  | .mSales => b.sales_max
  | .mOpIncome => b.op_max
  | .mNetIncome => b.ni_max
  | .mEquityRatio => b.eq_max
  | .mOpMargin => b.margin_max
  | .mTotalAssets => b.ta_max

/-- Column a bounded metric filters on (the derived dataframe columns). -/
def bcol : BMetric → KFRow → FVal
  | .mSales => salesOku
  | .mOpIncome => opIncomeOku
  | .mNetIncome => netIncomeOku
  | .mEquityRatio => equityRatio
  | .mOpMargin => opMargin
  | .mTotalAssets => totalAssetsOku

/-- Bound conjunction with one metric's two bound checks replaced by `true`
(what remains of `satisfiesBounds` when that metric's bounds are unset). -/
def satisfiesExcept (m : BMetric) (b : Bounds) (r : KFRow) : Bool :=
  satisfiesBounds { b with
    sales_min := if m = .mSales then none else b.sales_min
    sales_max := if m = .mSales then none else b.sales_max
    op_min := if m = .mOpIncome then none else b.op_min
    op_max := if m = .mOpIncome then none else b.op_max
    ni_min := if m = .mNetIncome then none else b.ni_min
    ni_max := if m = .mNetIncome then none else b.ni_max
    eq_min := if m = .mEquityRatio then none else b.eq_min
    eq_max := if m = .mEquityRatio then none else b.eq_max
    margin_min := if m = .mOpMargin then none else b.margin_min
    margin_max := if m = .mOpMargin then none else b.margin_max
    ta_min := if m = .mTotalAssets then none else b.ta_min
    ta_max := if m = .mTotalAssets then none else b.ta_max } r

/-- A parameterized SQL statement as handed to the driver: the SQL text and
the tuple of bound parameter values (string-valued here; the integer `LIMIT`
parameter is accounted for separately where it occurs). -/
structure SqlQuery where
  sql : String
  params : List String
deriving DecidableEq, Repr

/-- Number of `?` placeholders in a SQL text. -/
def countQ (s : String) : Nat := s.data.count '?'

/-- SQL text of `get_multi_company_financials` (`db_helper.py` lines
237-242): the `IN (...)` clause holds `",".join("?" * len(sec_codes))`. -/
def multiFinSql (n : Nat) : String :=
  "SELECT * FROM v_key_financials WHERE sec_code IN (" ++
    String.intercalate "," (List.replicate n "?") ++
  ") ORDER BY sec_code, period_end DESC"

/-- Lexicographic `ORDER BY sec_code, period_end DESC` on KeyFinancial
rows. -/
def mfRel (a b : KFRow) : Prop :=
  (strLt a.sec_code b.sec_code ||
    (a.sec_code == b.sec_code && strLe b.period_end a.period_end)) = true

instance : DecidableRel mfRel := fun a b => by unfold mfRel; infer_instance

/-- Embeds `db_helper.get_multi_company_financials` (lines 233-242) together
with the query it issues: the empty list returns an empty dataframe before
any SQL is built (`.1 = none`), otherwise one query with one `?` per
identifier is issued and the matching rows are returned ordered by
`sec_code, period_end DESC` (modelled by `insertionSort` over that
ordering). -/
def get_multi_company_financials (store : List KFRow) (sec_codes : List String) :
    Option SqlQuery × List KFRow :=
  if sec_codes.isEmpty then (none, [])
  else
    (some ⟨multiFinSql sec_codes.length, sec_codes⟩,
      (store.filter (fun r => sec_codes.contains r.sec_code)).insertionSort mfRel)

/-- The global consolidated filter of `03_Compare.py` lines 55-56:
`if 1 in all_fin["is_consolidated"].values: all_fin = all_fin[...]` — note it
looks across ALL fetched rows, not per company. -/
def consolidatedOnly (all_fin : List KFRow) : List KFRow :=
  if all_fin.any (fun r => r.is_consolidated == 1)
  then all_fin.filter (fun r => r.is_consolidated == 1)
  else all_fin

/-- Row `sort_values("period_end", ascending=False).iloc[0]` selects: some
row attaining the maximum `period_end` (`none` on an empty frame).  Pandas'
unstable sort leaves the tie choice arbitrary; this fold keeps the first
maximal row. -/
def argmaxPeriod : List KFRow → Option KFRow
  | [] => none
  | r :: rs =>
      some (rs.foldl (fun m x => if strLt m.period_end x.period_end then x else m) r)

/-- The `latest_data` loop of `03_Compare.py` lines 63-68: for each selected
code in selection order, the company's rows within the (globally filtered)
frame, skipped when empty, else the latest row. -/
def latestData (selected : List String) (all_fin : List KFRow) : List KFRow :=
  selected.filterMap
    (fun code => argmaxPeriod (all_fin.filter (fun r => r.sec_code == code)))

/-- Rows the comparison page works from after the global consolidated
filter. -/
def comparePool (store : List KFRow) (selected : List String) : List KFRow :=
  consolidatedOnly (get_multi_company_financials store selected).2

/-- Latest-row-per-selected-company list feeding the comparison table and
the radar chart. -/
def comparePipeline (store : List KFRow) (selected : List String) : List KFRow :=
  latestData selected (comparePool store selected)

/-- The six fixed radar metrics (`radar_metrics`, `03_Compare.py` line
165). -/
inductive RMetric where
  | rSales
  | rOpIncome
  | rNetIncome
  | rTotalAssets
  | rNetAssets
  | rOpCF
deriving DecidableEq, Repr

/-- Raw column of a radar metric. -/
def rcol : RMetric → KFRow → FVal
  | .rSales => KFRow.sales
  | .rOpIncome => KFRow.operating_income
  | .rNetIncome => KFRow.net_income
  | .rTotalAssets => KFRow.total_assets
  | .rNetAssets => KFRow.net_assets
  | .rOpCF => KFRow.operating_cf

/-- Python `x or 0` on a float cell: only the falsy `0.0` is replaced (by
itself), `NaN` is truthy and passes through — so on this domain it is the
identity, kept to mirror `d.get(metric, 0) or 0` faithfully. -/
def orZero (v : FVal) : FVal := if v = FVal.num 0 then FVal.num 0 else v

/-- IEEE `>` (Python float comparison). -/
def fgt (a b : FVal) : Bool := FVal.flt b a

/-- Python builtin `max` over a list of floats: fold from the first element,
replacing the accumulator only when strictly greater (`none` on `[]`, where
Python raises — the radar code runs only with at least two companies). -/
def pymax : List FVal → Option FVal
  | [] => none
  | x :: xs => some (xs.foldl (fun acc v => if fgt v acc then v else acc) x)

/-- Radar denominator `max_vals[metric]` of `03_Compare.py` lines 173-176:
`max(abs-values) if > 0 else 1` (the `none` branch is unreachable under the
page's two-company guard and defaults to 1). -/
def maxVal (latest : List KFRow) (m : RMetric) : FVal :=
  match pymax (latest.map (fun d => FVal.fabs (orZero (rcol m d)))) with
  | none => .num 1
  | some mv => if fgt mv (.num 0) then mv else .num 1

/-- Radar value `normalized = val / max_vals[metric]` (`03_Compare.py` lines
182-184). -/
def radarValue (latest : List KFRow) (d : KFRow) (m : RMetric) : FVal :=
  FVal.fdiv (orZero (rcol m d)) (maxVal latest m)

/-- Specification-side maximum absolute value of a list of rationals. -/
def maxAbsQ (vals : List ℚ) : ℚ := vals.foldl (fun a q => max a |q|) 0

/-- Finite values of a radar metric across the selected companies. -/
def finVals (latest : List KFRow) (m : RMetric) : List ℚ :=
  latest.filterMap
    (fun e =>
      match rcol m e with
      | .num q => some q
      | _ => none)

/-- Row of the `text_blocks` table, restricted to the columns
`search_text_blocks` selects (the table's extra `context` column is not
selected there and is omitted). -/
structure TBRow where
  doc_id : String
  sec_code : String
  filer_name : String
  period_start : String
  period_end : String
  element_name : String
  section_label : String
  text_content : String
deriving DecidableEq, Repr

/-- Suffixes of a character list, longest first (including the empty one). -/
def suffixes : List Char → List (List Char)
  | [] => [[]]
  | c :: cs => (c :: cs) :: suffixes cs

/-- SQLite `LIKE` matching (no `ESCAPE` clause): `%` matches any character
sequence, `_` exactly one character, and any other pattern character matches
case-insensitively for ASCII letters only (SQLite's default, mirrored by
Lean's ASCII-only `Char.toLower`). -/
def likeM : List Char → List Char → Bool
  | [], t => t.isEmpty
  | p :: ps, t =>
    if p = '%' then (suffixes t).any (likeM ps)
    else
      match t with
      | [] => false
      | c :: cs => if p = '_' then likeM ps cs else p.toLower == c.toLower && likeM ps cs

/-- The pattern `f"%{keyword}%"` handed to `text_content LIKE ?`. -/
def likePattern (kw : String) : List Char := '%' :: (kw.data ++ ['%'])

/-- Python truthiness of an optional string argument (`if sec_code:` treats
both `None` and `""` as absent). -/
def truthy : Option String → Bool
  | none => false
  | some s => !s.isEmpty

/-- One optional equality filter of `search_text_blocks`: imposed only when
the argument is truthy. -/
def optEqCond (o : Option String) (v : String) : Bool :=
  match o with
  | none => true
  | some s => if s.isEmpty then true else v == s

/-- The optional keyword filter: `text_content LIKE '%keyword%'`. -/
def optLikeCond (o : Option String) (text : String) : Bool :=
  match o with
  | none => true
  | some k => if k.isEmpty then true else likeM (likePattern k) text.data

/-- Conjunction of the provided filters of `search_text_blocks`
(`db_helper.py` lines 294-308), in source order. -/
def tbMatches (sec sect kw pe : Option String) (r : TBRow) : Bool :=
  optEqCond sec r.sec_code && optEqCond sect r.section_label &&
  optLikeCond kw r.text_content && optEqCond pe r.period_end

/-- `ORDER BY period_end DESC, sec_code` on text-block rows. -/
def tbRel (a b : TBRow) : Prop :=
  (strLt b.period_end a.period_end ||
    (a.period_end == b.period_end && strLe a.sec_code b.sec_code)) = true

instance : DecidableRel tbRel := fun a b => by unfold tbRel; infer_instance

/-- Embeds `db_helper.search_text_blocks` (lines 286-322): filter, order by
`period_end DESC, sec_code` (modelled by `insertionSort` over that
ordering), then `LIMIT` (the non-negative limit the UI slider supplies). -/
def search_text_blocks (store : List TBRow) (sec sect kw pe : Option String)
    (limit : Nat) : List TBRow :=
  ((store.filter (tbMatches sec sect kw pe)).insertionSort tbRel).take limit

/-- ASCII-lowercased characters of a string. -/
def lowers (s : String) : List Char := s.data.map Char.toLower

/-- Containment of `kw` as a contiguous segment of `t`. -/
def hasSubstr (kw : List Char) : List Char → Bool
  | [] => kw.isEmpty
  | c :: cs => kw.isPrefixOf (c :: cs) || hasSubstr kw cs

/-- Case-insensitive (ASCII) substring containment — the specification's
reading of the keyword filter. -/
def ciContains (text kw : String) : Bool := hasSubstr (lowers kw) (lowers text)

/-- A keyword free of the SQL `LIKE` wildcard characters. -/
def noWild (kw : String) : Bool := kw.data.all (fun c => !(c == '%') && !(c == '_'))

/-- Condition strings `search_text_blocks` appends for the truthy filters
(`db_helper.py` lines 297-308); the values go to `params`, never into the
SQL text. -/
def optCondStr (o : Option String) (cond : String) : List String :=
  match o with
  | none => []
  | some s => if s.isEmpty then [] else [cond]

/-- Bound-parameter value a truthy filter appends (the keyword is wrapped
`%...%` before binding). -/
def optParamVal (o : Option String) (wrap : String → String) : List String :=
  match o with
  | none => []
  | some s => if s.isEmpty then [] else [wrap s]

/-- The `conditions` list after the four appends (initialized `["1=1"]`;
the initial element is added in `stbSql`). -/
def stbConds (sec sect kw pe : Option String) : List String :=
  optCondStr sec "sec_code = ?" ++ optCondStr sect "section_label = ?" ++
  optCondStr kw "text_content LIKE ?" ++ optCondStr pe "period_end = ?"

/-- The bound parameters of `search_text_blocks` in bind order (the integer
`limit` is appended as one further parameter, counted separately). -/
def stbParams (sec sect kw pe : Option String) : List String :=
  optParamVal sec id ++ optParamVal sect id ++
  optParamVal kw (fun k => "%" ++ k ++ "%") ++ optParamVal pe id

/-- SQL text `search_text_blocks` generates (`db_helper.py` lines 310-322):
`WHERE` is `" AND ".join(["1=1"] + conditions)` and the trailing `LIMIT ?`
is bound, not interpolated. -/
def stbSql (sec sect kw pe : Option String) : String :=
  "SELECT doc_id, sec_code, filer_name, period_start, period_end, " ++
  "element_name, section_label, text_content FROM text_blocks WHERE " ++
  String.intercalate " AND " ("1=1" :: stbConds sec sect kw pe) ++
  " ORDER BY period_end DESC, sec_code LIMIT ?"

/-- Constant SQL text of `search_companies` (`db_helper.py` lines 129-140). -/
def scSql : String :=
  "SELECT DISTINCT sec_code, filer_name, COUNT(*) as doc_count, " ++
  "MAX(file_date) as latest_date FROM documents WHERE sec_code IS NOT NULL " ++
  "AND sec_code != '' AND (sec_code LIKE ? OR filer_name LIKE ?) " ++
  "GROUP BY sec_code, filer_name ORDER BY sec_code"

/-- Query `search_companies` issues (`db_helper.py` lines 124-140): none for
a blank keyword; otherwise the constant SQL with the stripped keyword bound
twice, wrapped `%...%`. -/
def search_companies_query (keyword : String) : Option SqlQuery :=
  if keyword.trim.isEmpty then none
  else some ⟨scSql, ["%" ++ keyword.trim ++ "%", "%" ++ keyword.trim ++ "%"]⟩

/-- Row of the `documents` table (the columns `get_db_stats` touches; the
presence of the two status columns is tracked on the store, since a missing
column makes the whole query raise). -/
structure DocRow where
  doc_id : String
  sec_code : Option String
  doc_type_code : String
  file_date : String
  parse_status : Int
  dl_status : Int
deriving DecidableEq, Repr

/-- Row of the optional `financials` table (columns `get_financial_details`
selects). -/
structure FinRow where
  doc_id : String
  sec_code : String
  period_start : String
  period_end : String
  account_element : String
  account_label : String
  context : String
  unit : String
  value : FVal
  is_consolidated : Nat
  statement_type : String
deriving DecidableEq, Repr

/-- The SQLite store as the helper sees it: `documents` is primary (queries
on it propagate errors), the other tables and the two `documents` status
columns are optional — `none` / `false` makes a query touching them raise,
which the helper's `try/except` turns into an empty result or zero. -/
structure Store where
  documents : List DocRow
  hasParseStatus : Bool
  hasDlStatus : Bool
  key_financials : Option (List KFRow)
  financials : Option (List FinRow)
  text_blocks : Option (List TBRow)

/-- Lexicographic `ORDER BY period_end DESC, statement_type,
account_element` of `get_financial_details`. -/
def finRel (a b : FinRow) : Prop :=
  (strLt b.period_end a.period_end ||
    (a.period_end == b.period_end &&
      (strLt a.statement_type b.statement_type ||
        (a.statement_type == b.statement_type &&
          strLe a.account_element b.account_element)))) = true

instance : DecidableRel finRel := fun a b => by unfold finRel; infer_instance

/-- Embeds `db_helper.get_financial_details` (lines 178-193): with the
`financials` table present, its filtered and ordered rows; with the table
absent the raised `no such table` error is caught and an empty dataframe is
returned. -/
def get_financial_details (s : Store) (sec : String) (is_cons : Nat) : List FinRow :=
  match s.financials with
  | none => []
  | some tbl =>
      (tbl.filter (fun f => f.sec_code == sec && f.is_consolidated == is_cons)).insertionSort finRel

/-- The statistics dictionary `get_db_stats` builds (`db_helper.py` lines
43-103; the `doc_type_counts` grouping is kept as an association list, its
`ORDER BY cnt DESC` presentation order dropped as claim-irrelevant). -/
structure DbStats where
  total_docs : Nat
  total_companies : Nat
  parsed_docs : Nat
  downloaded_docs : Nat
  financial_records : Nat
  text_blocks : Nat
  date_from : String
  date_to : String
  doc_type_counts : List (String × Nat)
deriving DecidableEq, Repr

/-- SQL `MIN` over strings (`none` on the empty table, which the source
turns into `""` via `row[0] or ""`). -/
def minStr (l : List String) : Option String :=
  l.foldl
    (fun acc p =>
      match acc with
      | none => some p
      | some m => if strLt p m then some p else some m)
    none

/-- Embeds `db_helper.get_db_stats` (lines 43-103).  The two unguarded
`documents` queries are primary; each `try/except` of the source appears as
a `Bool`/`Option` test on the optional column or table, with the `except`
branch's fallback value. -/
def get_db_stats (s : Store) : DbStats where
  total_docs := s.documents.length
  total_companies :=
    (((s.documents.filterMap DocRow.sec_code).filter (fun c => !c.isEmpty)).dedup).length
  parsed_docs :=
    if s.hasParseStatus
    then (s.documents.filter (fun d => d.parse_status == 1)).length
    else 0
  downloaded_docs :=
    if s.hasDlStatus
    then (s.documents.filter (fun d => decide (0 < d.dl_status))).length
    else 0
  financial_records :=
    match s.key_financials with
    | some l => l.length
    | none =>
        match s.financials with
        | some l => l.length
        | none => 0
  text_blocks :=
    match s.text_blocks with
    | some l => l.length
    | none => 0
  date_from := (minStr (s.documents.map DocRow.file_date)).getD ""
  date_to := (maxStr (s.documents.map DocRow.file_date)).getD ""
  doc_type_counts :=
    ((s.documents.map DocRow.doc_type_code).dedup).map
      (fun c => (c, (s.documents.filter (fun d => d.doc_type_code == c)).length))

/-- Compact KeyFinancial row builder for the concrete instances below. -/
def mkKF (sec name pe : String) (cons : Nat)
    (sales oi ordi ni ta na ocf icf fcf : FVal) : KFRow :=
  ⟨sec, name, pe, cons, sales, oi, ordi, ni, ta, na, ocf, icf, fcf⟩

/-- Company with positive sales, positive net assets and zero total assets —
the denominator-zero instance for the ratio-derivation claim. -/
def zeroAssetsRow : KFRow :=
  mkKF "5555" "ZeroAssets KK" "2024-03-31" 1
    (.num 1000000000) (.num 100000000) (.num 100000000) (.num 50000000)
    (.num 0) (.num 500000000) .nan .nan .nan

/-- Company `1111` with only a non-consolidated KeyFinancial row. -/
def cmpRowA : KFRow :=
  mkKF "1111" "NonConsolidated KK" "2023-03-31" 0
    (.num 100) (.num 10) (.num 10) (.num 5) (.num 200) (.num 100)
    (.num 10) (.num 0) (.num 0)

/-- Company `2222` with one consolidated KeyFinancial row. -/
def cmpRowB : KFRow :=
  mkKF "2222" "Consolidated KK" "2023-03-31" 1
    (.num 300) (.num 30) (.num 30) (.num 15) (.num 600) (.num 300)
    (.num 30) (.num 0) (.num 0)

/-- Radar instance: company whose operating cash flow is negative. -/
def radNeg : KFRow :=
  mkKF "3333" "NegCF KK" "2024-03-31" 1
    (.num 1) (.num 1) (.num 1) (.num 1) (.num 1) (.num 1)
    (.num (-10000000000)) (.num 1) (.num 1)

/-- Radar instance: company whose operating cash flow is positive and of
smaller magnitude. -/
def radPos : KFRow :=
  mkKF "4444" "PosCF KK" "2024-03-31" 1
    (.num 2) (.num 2) (.num 2) (.num 2) (.num 2) (.num 2)
    (.num 5000000000) (.num 2) (.num 2)

/-- Store for the latest-consolidated-snapshot witness: company `7203` with
two consolidated periods and a later non-consolidated one, company `9999`
with only a non-consolidated row. -/
def c2Store : List KFRow :=
  [mkKF "7203" "Toyota" "2022-03-31" 1 (.num 10) (.num 1) (.num 1) (.num 1)
      (.num 20) (.num 10) .nan .nan .nan,
   mkKF "7203" "Toyota" "2023-03-31" 1 (.num 11) (.num 1) (.num 1) (.num 1)
      (.num 21) (.num 11) .nan .nan .nan,
   mkKF "7203" "Toyota" "2024-03-31" 0 (.num 12) (.num 1) (.num 1) (.num 1)
      (.num 22) (.num 12) .nan .nan .nan,
   mkKF "9999" "Solo KK" "2024-03-31" 0 (.num 5) (.num 1) (.num 1) (.num 1)
      (.num 9) (.num 5) .nan .nan .nan]

/-- Text block whose content matches the pattern `%a%b%` without containing
the keyword `a%b` as a substring. -/
def wildTB : TBRow :=
  ⟨"D1", "7203", "Toyota", "2023-04-01", "2024-03-31", "RiskTextBlock",
    "Business risks", "aXb"⟩

/-! Helper lemmas: the lexicographic text order. -/

theorem lexLt_irrefl : ∀ l : List Char, lexLt l l = false
  | [] => rfl
  | a :: as => by simp [lexLt, lexLt_irrefl as]

theorem lexLt_trans : ∀ {a b c : List Char},
    lexLt a b = true → lexLt b c = true → lexLt a c = true
  | _, [], _, hab, _ => by simp [lexLt] at hab
  | [], _ :: _, [], _, hbc => by simp [lexLt] at hbc
  | [], _ :: _, _ :: _, _, _ => rfl
  | _ :: _, _ :: _, [], _, hbc => by simp [lexLt] at hbc
  | x :: xs, y :: ys, z :: zs, hab, hbc => by
    simp only [lexLt] at hab hbc ⊢
    split at hab
    · split at hbc
      · simp [if_pos (by omega : x.toNat < z.toNat)]
      · split at hbc
        · exact absurd hbc (by simp)
        · simp [if_pos (by omega : x.toNat < z.toNat)]
    · split at hab
      · exact absurd hab (by simp)
      · split at hbc
        · simp [if_pos (by omega : x.toNat < z.toNat)]
        · split at hbc
          · exact absurd hbc (by simp)
          · have : ¬ x.toNat < z.toNat := by omega
            have : ¬ z.toNat < x.toNat := by omega
            simp_all [lexLt_trans hab hbc]

theorem lexLt_antisymm : ∀ {a b : List Char},
    lexLt a b = false → lexLt b a = false → a = b
  | [], [], _, _ => rfl
  | [], _ :: _, hab, _ => by simp [lexLt] at hab
  | _ :: _, [], _, hba => by simp [lexLt] at hba
  | x :: xs, y :: ys, hab, hba => by
    simp only [lexLt] at hab hba
    by_cases hxy : x.toNat < y.toNat
    · rw [if_pos hxy] at hab; exact absurd hab (by simp)
    · by_cases hyx : y.toNat < x.toNat
      · rw [if_pos hyx] at hba; exact absurd hba (by simp)
      · rw [if_neg hxy, if_neg hyx] at hab
        rw [if_neg hyx, if_neg hxy] at hba
        have hn : x.toNat = y.toNat := by omega
        have hx : x = y := Char.ext (UInt32.toNat.inj hn)
        rw [hx, lexLt_antisymm hab hba]

theorem lexNotLt_trans : ∀ {a b c : List Char},
    lexLt a b = false → lexLt b c = false → lexLt a c = false := by
  intro a b c hab hbc
  by_contra hcon
  have hac : lexLt a c = true := by cases h : lexLt a c <;> simp_all
  cases hba : lexLt b a with
  | false => exact absurd (lexLt_antisymm hab hba ▸ hac) (by simp [hbc])
  | true => exact absurd (lexLt_trans hba hac) (by simp [hbc])

/-! Helper lemmas: the fold computing the SQL `MAX` aggregate. -/

theorem maxStr_go : ∀ (l : List String) (m0 : String),
    ∃ m, List.foldl
        (fun acc p =>
          match acc with
          | none => some p
          | some m => if strLt m p then some p else some m)
        (some m0) l = some m ∧
      (m = m0 ∨ m ∈ l) ∧ strLt m m0 = false ∧ ∀ a ∈ l, strLt m a = false
  | [], m0 => ⟨m0, rfl, Or.inl rfl, by simp [strLt, lexLt_irrefl], by simp⟩
  | p :: rest, m0 => by
    by_cases h : strLt m0 p = true
    · obtain ⟨m, hm, hmem, hm0, hall⟩ := maxStr_go rest p
      refine ⟨m, by simpa [h] using hm, ?_, ?_, ?_⟩
      · rcases hmem with rfl | hmem
        · exact Or.inr (List.mem_cons_self _ _)
        · exact Or.inr (List.mem_cons_of_mem _ hmem)
      · by_contra hcon
        have : strLt m m0 = true := by
          cases hval : strLt m m0 <;> simp_all
        exact absurd (lexLt_trans this h) (by simpa [strLt] using hm0)
      · intro a ha
        rcases List.mem_cons.mp ha with rfl | ha
        · exact hm0
        · exact hall a ha
    · obtain ⟨m, hm, hmem, hm0, hall⟩ := maxStr_go rest m0
      have hfalse : strLt m0 p = false := by cases hval : strLt m0 p <;> simp_all
      refine ⟨m, by simpa [hfalse] using hm, ?_, hm0, ?_⟩
      · rcases hmem with rfl | hmem
        · exact Or.inl rfl
        · exact Or.inr (List.mem_cons_of_mem _ hmem)
      · intro a ha
        rcases List.mem_cons.mp ha with rfl | ha
        · exact lexNotLt_trans hm0 hfalse
        · exact hall a ha

theorem maxStr_spec (l : List String) (hne : l ≠ []) :
    ∃ m, maxStr l = some m ∧ m ∈ l ∧ ∀ a ∈ l, strLt m a = false := by
  match l, hne with
  | p :: rest, _ =>
    obtain ⟨m, hm, hmem, hm0, hall⟩ := maxStr_go rest p
    refine ⟨m, by simpa [maxStr] using hm, ?_, ?_⟩
    · rcases hmem with rfl | hmem
      · exact List.mem_cons_self _ _
      · exact List.mem_cons_of_mem _ hmem
    · intro a ha
      rcases List.mem_cons.mp ha with rfl | ha
      · exact hm0
      · exact hall a ha

/-! Claim C2: the latest-consolidated snapshot query. -/

theorem filter_key_len_le_one : ∀ {store : List KFRow}, KFInvariant store →
    ∀ (c p : String) (i : Nat),
    (store.filter (fun r => r.sec_code == c && r.period_end == p &&
      r.is_consolidated == i)).length ≤ 1 := by
  intro store inv c p i
  induction store with
  | nil => simp
  | cons r rest ih =>
    rw [KFInvariant, List.pairwise_cons] at inv
    obtain ⟨hr, hrest⟩ := inv
    rw [List.filter_cons]
    by_cases h : (r.sec_code == c && r.period_end == p && r.is_consolidated == i) = true
    · rw [if_pos h]
      have hnil : rest.filter (fun s => s.sec_code == c && s.period_end == p &&
          s.is_consolidated == i) = [] := by
        rw [List.filter_eq_nil_iff]
        intro s hs hmatch
        simp only [Bool.and_eq_true, beq_iff_eq] at h hmatch
        exact hr s hs
          ⟨h.1.1.trans hmatch.1.1.symm, h.1.2.trans hmatch.1.2.symm,
            h.2.trans hmatch.2.symm⟩
      simp [hnil]
    · rw [if_neg h]
      exact ih hrest

theorem get_screening_data_mem (store : List KFRow) (r : KFRow) :
    r ∈ get_screening_data store ↔
      r ∈ store ∧ r.is_consolidated = 1 ∧
        maxStr (consolidatedPeriods store r.sec_code) = some r.period_end := by
  simp [get_screening_data, List.mem_filter, and_assoc]

/-- C2.  Latest-consolidated snapshot: over any store satisfying the
KeyFinancial uniqueness invariant, `get_screening_data` returns exactly the
`is_consolidated = 1` rows whose `period_end` is the maximum consolidated
period of their company, and for each company owning at least one
consolidated row exactly one row is returned. -/
theorem latest_consolidated_snapshot (store : List KFRow) (inv : KFInvariant store) :
    (∀ r, r ∈ get_screening_data store ↔
        (r ∈ store ∧ r.is_consolidated = 1 ∧
          maxStr (consolidatedPeriods store r.sec_code) = some r.period_end)) ∧
    (∀ c, (∃ r ∈ store, r.is_consolidated = 1 ∧ r.sec_code = c) →
        ((get_screening_data store).filter (fun r => r.sec_code == c)).length = 1) := by
  constructor
  · exact get_screening_data_mem store
  · intro c ⟨w, hw, hw1, hwc⟩
    have hne : consolidatedPeriods store c ≠ [] := by
      have : w.period_end ∈ consolidatedPeriods store c := by
        simp only [consolidatedPeriods, List.mem_map]
        exact ⟨w, List.mem_filter.mpr ⟨hw, by simp [hw1, hwc]⟩, rfl⟩
      intro hnil
      rw [hnil] at this
      exact absurd this (List.not_mem_nil _)
    obtain ⟨m, hm, hmem, _⟩ := maxStr_spec _ hne
    obtain ⟨v, ⟨hvmem, hv1, hvc⟩, hvp⟩ :
        ∃ a, (a ∈ store ∧ a.is_consolidated = 1 ∧ a.sec_code = c) ∧ a.period_end = m := by
      simpa [consolidatedPeriods, List.mem_map, List.mem_filter] using hmem
    rw [get_screening_data, List.filter_filter]
    have hcongr :
        store.filter
          (fun a => a.sec_code == c &&
            (a.is_consolidated == 1 &&
              (maxStr (consolidatedPeriods store a.sec_code) == some a.period_end))) =
        store.filter (fun a => a.sec_code == c && a.period_end == m &&
          a.is_consolidated == 1) := by
      apply List.filter_congr
      intro x _
      by_cases hsec : x.sec_code = c
      · by_cases h1 : x.is_consolidated = 1
        · by_cases h2 : x.period_end = m
          · simp [hsec, hm, h1, h2]
          · simp [hsec, hm, h1, h2, Ne.symm h2]
        · have hb1 : (x.is_consolidated == 1) = false := by simp [h1]
          simp [hsec, hm, hb1]
      · have hb : (x.sec_code == c) = false := by simp [hsec]
        simp [hb]
    rw [hcongr]
    refine le_antisymm (filter_key_len_le_one inv c m 1) ?_
    have hvfil : v ∈ store.filter (fun a => a.sec_code == c && a.period_end == m &&
        a.is_consolidated == 1) := by
      rw [List.mem_filter]
      exact ⟨hvmem, by simp [hvc, hvp, hv1]⟩
    exact List.length_pos.mpr
      (fun hnil => by rw [hnil] at hvfil; exact absurd hvfil (List.not_mem_nil _))

/-- Witness for C2 at the concrete four-row store. -/
theorem latest_consolidated_snapshot_witness :
    (∀ r, r ∈ get_screening_data c2Store ↔
        (r ∈ c2Store ∧ r.is_consolidated = 1 ∧
          maxStr (consolidatedPeriods c2Store r.sec_code) = some r.period_end)) ∧
    (∀ c, (∃ r ∈ c2Store, r.is_consolidated = 1 ∧ r.sec_code = c) →
        ((get_screening_data c2Store).filter (fun r => r.sec_code == c)).length = 1) :=
  latest_consolidated_snapshot c2Store (by unfold KFInvariant; decide)

/-! Claim C1: the screening filter postcondition. -/

theorem fle_trans : ∀ {a b c : FVal}, FVal.fle a b = true → FVal.fle b c = true →
    FVal.fle a c = true := by
  intro a b c hab hbc
  cases a <;> cases b <;> cases c <;>
    simp_all [FVal.fle] <;>
    first
      | rfl
      | (rename_i s t u; cases s <;> cases t <;> cases u <;> simp_all)
      | (rename_i s t; cases s <;> cases t <;> simp_all)
      | (rename_i s; cases s <;> simp_all)
      | exact le_trans hab hbc

theorem descOK_total (a b : FVal) : descOK a b = true ∨ descOK b a = true := by
  cases a <;> cases b <;> simp_all [descOK, FVal.fle] <;>
    first
      | (rename_i s t; cases s <;> cases t <;> simp_all)
      | (rename_i s; cases s <;> simp_all)
      | exact le_total _ _

theorem descOK_trans {a b c : FVal} (hab : descOK a b = true)
    (hbc : descOK b c = true) : descOK a c = true := by
  cases ha : a <;> cases hb : b <;> cases hc : c <;> subst ha hb hc <;>
    simp_all [descOK] <;> exact fle_trans hbc hab

theorem optGe_eq (o : Option ℚ) (col : KFRow → FVal) (rows : List KFRow) :
    optGe o col rows = rows.filter (fun r => geOK o (col r)) := by
  cases o with
  | none => simp [optGe, geOK]
  | some q => rfl

theorem optLe_eq (o : Option ℚ) (col : KFRow → FVal) (rows : List KFRow) :
    optLe o col rows = rows.filter (fun r => leOK o (col r)) := by
  cases o with
  | none => simp [optLe, leOK]
  | some q => rfl

theorem applyFilters_eq (b : Bounds) (rows : List KFRow) :
    applyFilters b rows = rows.filter (satisfiesBounds b) := by
  unfold applyFilters
  simp only [optGe_eq, optLe_eq, List.filter_filter]
  apply List.filter_congr
  intro x _
  rw [Bool.eq_iff_iff]
  simp only [satisfiesBounds, Bool.and_eq_true]
  tauto

theorem screening_filter_eq (b : Bounds) (rows : List KFRow) :
    dropNoSales (applyFilters b rows) =
      rows.filter (fun r => satisfiesBounds b r && !(r.sales == FVal.nan)) := by
  rw [dropNoSales, applyFilters_eq, List.filter_filter]
  apply List.filter_congr
  intro x _
  rw [Bool.eq_iff_iff]
  simp only [Bool.and_eq_true]
  tauto

/-- C1.  Screening postcondition: over any latest-period snapshot and bound
assignment the output is a permutation of exactly the snapshot rows with
non-NaN `sales` satisfying every set inclusive bound; it is sorted
descending by the selected metric with NaN rows last; with no bounds set it
is exactly the non-NaN-sales rows; bounds with an empty sales interval give
the empty list rather than an error. -/
theorem screening_postcondition (rows : List KFRow) (b : Bounds) (k : SortKey) :
    (screeningResult b k rows).Perm
        (rows.filter (fun r => satisfiesBounds b r && !(r.sales == FVal.nan))) ∧
    List.Sorted (screenRel k) (screeningResult b k rows) ∧
    (b = noBounds →
      (screeningResult b k rows).Perm
        (rows.filter (fun r => !(r.sales == FVal.nan)))) ∧
    (∀ qa qc, b.sales_min = some qa → b.sales_max = some qc → qc < qa →
      screeningResult b k rows = []) := by
  have hperm : (screeningResult b k rows).Perm
      (rows.filter (fun r => satisfiesBounds b r && !(r.sales == FVal.nan))) := by
    rw [screeningResult, screening_filter_eq]
    exact List.perm_insertionSort _ _
  refine ⟨hperm, ?_, ?_, ?_⟩
  · exact @List.sorted_insertionSort KFRow (screenRel k) _
      ⟨fun a b => descOK_total _ _⟩ ⟨fun a b c => descOK_trans⟩ _
  · rintro rfl
    refine hperm.trans (List.Perm.of_eq (List.filter_congr ?_))
    intro x _
    have hsat : satisfiesBounds noBounds x = true := by
      simp [satisfiesBounds, geOK, leOK, noBounds]
    simp [hsat]
  · intro qa qc h1 h2 hlt
    have hnil : rows.filter
        (fun r => satisfiesBounds b r && !(r.sales == FVal.nan)) = [] := by
      rw [List.filter_eq_nil_iff]
      intro r _
      have hfalse : satisfiesBounds b r = false := by
        rw [satisfiesBounds, h1, h2]
        cases hv : salesOku r with
        | nan => simp [geOK, FVal.fle]
        | inf s => cases s <;> simp [geOK, leOK, FVal.fle]
        | num v =>
            have : ¬(qa ≤ v ∧ v ≤ qc) := fun ⟨ha, hb⟩ => absurd (le_trans ha hb) (not_le.mpr hlt)
            by_cases hqa : qa ≤ v
            · have : ¬ v ≤ qc := fun hb => this ⟨hqa, hb⟩
              simp [geOK, leOK, FVal.fle, this]
            · simp [geOK, leOK, FVal.fle, hqa]
      simp [hfalse]
    rw [screeningResult, screening_filter_eq, hnil]
    rfl

/-! Claim C10: null values under set bounds. -/

theorem satisfiesBounds_bound (b : Bounds) (r : KFRow)
    (h : satisfiesBounds b r = true) (m : BMetric) :
    geOK (bmin b m) (bcol m r) = true ∧ leOK (bmax b m) (bcol m r) = true := by
  simp only [satisfiesBounds, Bool.and_eq_true] at h
  cases m <;> simp only [bmin, bmax, bcol] <;> tauto

theorem satisfiesExcept_eq_of_unset (m : BMetric) (b : Bounds) (r : KFRow)
    (h1 : bmin b m = none) (h2 : bmax b m = none) :
    satisfiesExcept m b r = satisfiesBounds b r := by
  cases m <;>
    (simp only [bmin, bmax] at h1 h2;
     simp [satisfiesExcept, satisfiesBounds, h1, h2])

/-- C10.  Implicit null-exclusion: once a min or max bound is set for one of
the six metrics, any row whose derived value for that metric is NaN is
excluded from the screening output; with both of that metric's bounds unset
such a row passes through whenever the remaining bound checks and the
non-NaN-sales condition hold. -/
theorem null_metric_exclusion (rows : List KFRow) (b : Bounds) (k : SortKey)
    (m : BMetric) (r : KFRow) :
    ((bmin b m ≠ none ∨ bmax b m ≠ none) → bcol m r = FVal.nan →
      r ∉ screeningResult b k rows) ∧
    (bmin b m = none → bmax b m = none → r ∈ rows → satisfiesExcept m b r = true →
      !(r.sales == FVal.nan) = true → r ∈ screeningResult b k rows) := by
  constructor
  · intro hset hnan hmem
    rw [screeningResult, screening_filter_eq] at hmem
    have hsat : satisfiesBounds b r = true := by
      simp only [List.mem_insertionSort, List.mem_filter, Bool.and_eq_true] at hmem
      exact hmem.2.1
    obtain ⟨hge, hle⟩ := satisfiesBounds_bound b r hsat m
    rcases hset with hmin | hmax
    · obtain ⟨q, hq⟩ := Option.ne_none_iff_exists'.mp hmin
      rw [hq, hnan] at hge
      simp [geOK, FVal.fle] at hge
    · obtain ⟨q, hq⟩ := Option.ne_none_iff_exists'.mp hmax
      rw [hq, hnan] at hle
      simp [leOK, FVal.fle] at hle
  · intro h1 h2 hmem hex hsales
    rw [screeningResult, screening_filter_eq]
    have hsat : satisfiesBounds b r = true := by
      rw [← satisfiesExcept_eq_of_unset m b r h1 h2]; exact hex
    have hss : ¬ r.sales = FVal.nan := by simpa using hsales
    simp only [List.mem_insertionSort, List.mem_filter]
    exact ⟨hmem, by simp [hsat, hss]⟩

/-! Claim C3: ratio derivation. -/

/-- Counterexample to C3 as stated: a row with positive net assets and zero
total assets gets `equity_ratio = +inf`, a non-null value (numpy division by
zero yields a signed infinity, not NaN). -/
theorem ratio_zero_denominator_not_null :
    zeroAssetsRow.total_assets = FVal.num 0 ∧
    equityRatio zeroAssetsRow = FVal.inf true ∧
    equityRatio zeroAssetsRow ≠ FVal.nan := by decide

/-- C3 amended.  Ratio derivation over the cells SQLite delivers (finite or
NaN): a NaN operand or `0/0` yields NaN; a zero denominator with nonzero
finite numerator yields a signed infinity (not NaN); a nonzero denominator
yields the rounded finite ratio; both derivations are total functions, so
they never raise. -/
theorem ratio_derivation (r : KFRow) :
    (r.total_assets = FVal.nan ∨ r.net_assets = FVal.nan → equityRatio r = FVal.nan) ∧
    (r.total_assets = FVal.num 0 ∧ r.net_assets = FVal.num 0 → equityRatio r = FVal.nan) ∧
    (∀ q : ℚ, r.total_assets = FVal.num 0 → r.net_assets = FVal.num q → q ≠ 0 →
      equityRatio r = FVal.inf (decide (0 < q))) ∧
    (∀ qn qd : ℚ, r.net_assets = FVal.num qn → r.total_assets = FVal.num qd → qd ≠ 0 →
      equityRatio r = FVal.num ((rhe (100 * (qn / qd) * 10) : ℚ) / 10)) ∧
    (r.sales = FVal.nan ∨ r.operating_income = FVal.nan → opMargin r = FVal.nan) ∧
    (r.sales = FVal.num 0 ∧ r.operating_income = FVal.num 0 → opMargin r = FVal.nan) ∧
    (∀ q : ℚ, r.sales = FVal.num 0 → r.operating_income = FVal.num q → q ≠ 0 →
      opMargin r = FVal.inf (decide (0 < q))) ∧
    (∀ qn qd : ℚ, r.operating_income = FVal.num qn → r.sales = FVal.num qd → qd ≠ 0 →
      opMargin r = FVal.num ((rhe (100 * (qn / qd) * 10) : ℚ) / 10)) := by
  refine ⟨?_, ?_, ?_, ?_, ?_, ?_, ?_, ?_⟩
  · rintro (h | h) <;>
      [skip; cases hb : r.total_assets] <;>
      cases hn : r.net_assets <;>
      simp_all [equityRatio, FVal.fdiv, FVal.scale, FVal.round1]
  · rintro ⟨h1, h2⟩
    simp [equityRatio, h1, h2, FVal.fdiv, FVal.scale, FVal.round1]
  · intro q h1 h2 hq
    simp [equityRatio, h1, h2, FVal.fdiv, hq, FVal.scale, FVal.round1]
  · intro qn qd h1 h2 hd
    simp [equityRatio, h1, h2, FVal.fdiv, hd, FVal.scale, FVal.round1, mul_assoc]
  · rintro (h | h) <;>
      [skip; cases hb : r.sales] <;>
      cases hn : r.operating_income <;>
      simp_all [opMargin, FVal.fdiv, FVal.scale, FVal.round1]
  · rintro ⟨h1, h2⟩
    simp [opMargin, h1, h2, FVal.fdiv, FVal.scale, FVal.round1]
  · intro q h1 h2 hq
    simp [opMargin, h1, h2, FVal.fdiv, hq, FVal.scale, FVal.round1]
  · intro qn qd h1 h2 hd
    simp [opMargin, h1, h2, FVal.fdiv, hd, FVal.scale, FVal.round1, mul_assoc]

/-! Claim C4: the comparison page's latest-row selection. -/

theorem argmaxPeriod_go : ∀ (rs : List KFRow) (r : KFRow),
    ∃ m, rs.foldl (fun m x => if strLt m.period_end x.period_end then x else m) r = m ∧
      (m = r ∨ m ∈ rs) ∧ strLt m.period_end r.period_end = false ∧
      ∀ x ∈ rs, strLt m.period_end x.period_end = false
  | [], r => ⟨r, rfl, Or.inl rfl, by simp [strLt, lexLt_irrefl], by simp⟩
  | x :: rest, r => by
    by_cases h : strLt r.period_end x.period_end = true
    · obtain ⟨m, hm, hmem, hm0, hall⟩ := argmaxPeriod_go rest x
      refine ⟨m, by simpa [h] using hm, ?_, ?_, ?_⟩
      · rcases hmem with rfl | hmem
        · exact Or.inr (List.mem_cons_self _ _)
        · exact Or.inr (List.mem_cons_of_mem _ hmem)
      · by_contra hcon
        have hlt : strLt m.period_end r.period_end = true := by
          cases hval : strLt m.period_end r.period_end <;> simp_all
        exact absurd (lexLt_trans hlt h) (by simpa [strLt] using hm0)
      · intro a ha
        rcases List.mem_cons.mp ha with rfl | ha
        · exact hm0
        · exact hall a ha
    · obtain ⟨m, hm, hmem, hm0, hall⟩ := argmaxPeriod_go rest r
      have hfalse : strLt r.period_end x.period_end = false := by
        cases hval : strLt r.period_end x.period_end <;> simp_all
      refine ⟨m, by simpa [hfalse] using hm, ?_, hm0, ?_⟩
      · rcases hmem with rfl | hmem
        · exact Or.inl rfl
        · exact Or.inr (List.mem_cons_of_mem _ hmem)
      · intro a ha
        rcases List.mem_cons.mp ha with rfl | ha
        · exact lexNotLt_trans hm0 hfalse
        · exact hall a ha

theorem argmaxPeriod_eq_some {l : List KFRow} {m : KFRow}
    (h : argmaxPeriod l = some m) :
    m ∈ l ∧ ∀ x ∈ l, strLt m.period_end x.period_end = false := by
  match l, h with
  | r :: rs, h =>
    obtain ⟨m', hm', hmem, hm0, hall⟩ := argmaxPeriod_go rs r
    rw [argmaxPeriod, hm'] at h
    obtain rfl : m' = m := Option.some.inj h
    refine ⟨?_, ?_⟩
    · rcases hmem with rfl | hmem
      · exact List.mem_cons_self _ _
      · exact List.mem_cons_of_mem _ hmem
    · intro x hx
      rcases List.mem_cons.mp hx with rfl | hx
      · exact hm0
      · exact hall x hx

theorem argmaxPeriod_ne_none {l : List KFRow} (h : l ≠ []) :
    ∃ m, argmaxPeriod l = some m := by
  match l, h with
  | r :: rs, _ =>
    obtain ⟨m, hm, _, _, _⟩ := argmaxPeriod_go rs r
    exact ⟨m, by rw [argmaxPeriod, hm]⟩

/-- Counterexample to C4 as stated: selecting companies `1111` (only a
non-consolidated row) and `2222` (a consolidated row) makes the GLOBAL
consolidated filter drop all of `1111`'s rows, so `1111` contributes no
column although it has a KeyFinancial row. -/
theorem compare_nonconsolidated_dropped :
    (comparePipeline [cmpRowA, cmpRowB] ["1111", "2222"]).map KFRow.sec_code =
        ["2222"] ∧
    cmpRowA ∈ [cmpRowA, cmpRowB] ∧ cmpRowA.sec_code = "1111" ∧
    "1111" ∈ ["1111", "2222"] := by decide

/-- C4 amended.  The comparison engine's consolidated preference is global,
not per company: after the one `is_consolidated` filter over ALL fetched
rows, each selected company contributes the maximum-`period_end` row among
its own remaining rows, and a company none of whose rows survive the global
filter contributes nothing.  When any fetched row is consolidated, every
surviving row is consolidated. -/
theorem compare_latest_selection (store : List KFRow) (selected : List String) :
    (∀ r ∈ comparePipeline store selected,
        r ∈ comparePool store selected ∧ r.sec_code ∈ selected ∧
        ∀ s ∈ comparePool store selected, s.sec_code = r.sec_code →
          strLt r.period_end s.period_end = false) ∧
    (∀ code ∈ selected, (∃ s ∈ comparePool store selected, s.sec_code = code) →
        ∃ r ∈ comparePipeline store selected, r.sec_code = code) ∧
    ((∃ s ∈ (get_multi_company_financials store selected).2, s.is_consolidated = 1) →
        ∀ r ∈ comparePool store selected, r.is_consolidated = 1) := by
  refine ⟨?_, ?_, ?_⟩
  · intro r hr
    rw [comparePipeline, latestData] at hr
    obtain ⟨code, hcode, hag⟩ := List.mem_filterMap.mp hr
    obtain ⟨hmem, hmax⟩ := argmaxPeriod_eq_some hag
    have hrf := List.mem_filter.mp hmem
    have hsec : r.sec_code = code := by simpa using hrf.2
    refine ⟨hrf.1, hsec ▸ hcode, ?_⟩
    intro s hs hssec
    exact hmax s (List.mem_filter.mpr ⟨hs, by simp [hssec, hsec]⟩)
  · intro code hcode ⟨s, hs, hssec⟩
    have hne : (comparePool store selected).filter (fun r => r.sec_code == code) ≠ [] := by
      intro hnil
      have : s ∈ (comparePool store selected).filter (fun r => r.sec_code == code) :=
        List.mem_filter.mpr ⟨hs, by simp [hssec]⟩
      rw [hnil] at this
      exact absurd this (List.not_mem_nil _)
    obtain ⟨m, hm⟩ := argmaxPeriod_ne_none hne
    have hmm := argmaxPeriod_eq_some hm
    have hmf := List.mem_filter.mp hmm.1
    refine ⟨m, ?_, by simpa using hmf.2⟩
    rw [comparePipeline, latestData]
    exact List.mem_filterMap.mpr ⟨code, hcode, hm⟩
  · intro ⟨s, hs, hs1⟩ r hr
    rw [comparePool, consolidatedOnly] at hr
    rw [if_pos (List.any_eq_true.mpr ⟨s, hs, by simp [hs1]⟩)] at hr
    simpa using (List.mem_filter.mp hr).2

/-! Claim C5: radar normalization. -/

theorem orZero_eq (v : FVal) : orZero v = v := by
  rw [orZero]; split <;> simp_all

theorem pymax_num_fold : ∀ (qs : List ℚ) (q0 : ℚ),
    (qs.map FVal.num).foldl (fun acc v => if fgt v acc then v else acc) (FVal.num q0) =
      FVal.num (qs.foldl max q0)
  | [], q0 => rfl
  | q :: qs, q0 => by
    have hstep : (if fgt (FVal.num q) (FVal.num q0) then FVal.num q else FVal.num q0) =
        FVal.num (max q0 q) := by
      by_cases h : q0 < q
      · simp [fgt, FVal.flt, h, max_eq_right (le_of_lt h)]
      · simp [fgt, FVal.flt, h, max_eq_left (not_lt.mp h)]
    simp only [List.map_cons, List.foldl_cons, hstep, pymax_num_fold qs (max q0 q)]

theorem finVals_all_finite : ∀ (latest : List KFRow) (m : RMetric),
    (∀ e ∈ latest, (rcol m e).isFinite = true) →
    latest.map (fun d => FVal.fabs (orZero (rcol m d))) =
      (finVals latest m).map (fun q => FVal.num |q|) ∧
    finVals latest m ≠ [] ∨ latest = [] := by
  intro latest m hfin
  induction latest with
  | nil => exact Or.inr rfl
  | cons d rest ih =>
    have hd := hfin d (List.mem_cons_self _ _)
    obtain ⟨q, hq⟩ : ∃ q, rcol m d = FVal.num q := by
      cases h : rcol m d <;> simp_all [FVal.isFinite]
    have hrest := ih (fun e he => hfin e (List.mem_cons_of_mem _ he))
    have hmap : rest.map (fun d => FVal.fabs (orZero (rcol m d))) =
        (finVals rest m).map (fun q => FVal.num |q|) := by
      rcases hrest with ⟨h, _⟩ | h
      · exact h
      · simp [h, finVals]
    have hfcons : finVals (d :: rest) m = q :: finVals rest m := by
      simp [finVals, List.filterMap_cons, hq]
    have hhead : (orZero (rcol m d)).fabs = FVal.num |q| := by
      rw [orZero_eq, hq]; rfl
    left
    constructor
    · rw [List.map_cons, hfcons, List.map_cons, hhead, hmap]
    · rw [hfcons]; simp

theorem maxAbsQ_go : ∀ (qs : List ℚ) (a : ℚ),
    a ≤ qs.foldl (fun a q => max a |q|) a ∧
      ∀ q ∈ qs, |q| ≤ qs.foldl (fun a q => max a |q|) a
  | [], a => ⟨le_refl a, by simp⟩
  | q :: rest, a => by
    obtain ⟨h1, h2⟩ := maxAbsQ_go rest (max a |q|)
    refine ⟨le_trans (le_max_left _ _) h1, ?_⟩
    intro p hp
    rcases List.mem_cons.mp hp with rfl | hp
    · exact le_trans (le_max_right _ _) h1
    · exact h2 p hp

theorem maxAbsQ_nonneg (qs : List ℚ) : 0 ≤ maxAbsQ qs := (maxAbsQ_go qs 0).1

theorem le_maxAbsQ {qs : List ℚ} {q : ℚ} (h : q ∈ qs) : |q| ≤ maxAbsQ qs :=
  (maxAbsQ_go qs 0).2 q h

theorem maxVal_finite (latest : List KFRow) (m : RMetric) (hne : latest ≠ [])
    (hfin : ∀ e ∈ latest, (rcol m e).isFinite = true) :
    maxVal latest m =
      FVal.num (if 0 < maxAbsQ (finVals latest m) then maxAbsQ (finVals latest m) else 1) := by
  obtain ⟨hmap, hfne⟩ | hnil := finVals_all_finite latest m hfin
  · rw [maxVal, hmap]
    match hq : finVals latest m, hfne with
    | q0 :: qs, _ =>
      rw [List.map_cons, pymax]
      have hfold : (qs.map (fun q => FVal.num |q|)).foldl
          (fun acc v => if fgt v acc then v else acc) (FVal.num |q0|) =
          FVal.num (qs.foldl (fun a q => max a |q|) |q0|) := by
        have := pymax_num_fold (qs.map (fun q => |q|)) |q0|
        rw [List.map_map] at this
        rw [show (fun q : ℚ => FVal.num |q|) = (FVal.num ∘ fun q : ℚ => |q|) from rfl, this,
          List.foldl_map]
      rw [hfold]
      have hm0 : maxAbsQ (q0 :: qs) = qs.foldl (fun a q => max a |q|) |q0| := by
        rw [maxAbsQ, List.foldl_cons, max_eq_right (abs_nonneg q0)]
      rw [← hm0]
      by_cases hpos : 0 < maxAbsQ (q0 :: qs)
      · simp [fgt, FVal.flt, hpos]
      · simp [fgt, FVal.flt, hpos]
  · exact absurd hnil hne

/-- Counterexample to C5 as stated: with companies `radNeg` (operating cash
flow -100 oku-yen) and `radPos` (+50 oku-yen) selected, `radNeg`'s radar
value on the operating-CF axis is -1: it is computed as a negative value,
not clipped to 0, and lies outside [0,1]. -/
theorem radar_negative_not_clipped :
    radarValue [radNeg, radPos] radNeg RMetric.rOpCF = FVal.num (-1) ∧
    FVal.fle (FVal.num 0) (FVal.num (-1)) = false := by
  constructor
  · have hmv : maxVal [radNeg, radPos] RMetric.rOpCF = FVal.num 10000000000 := by
      rw [maxVal]
      norm_num [pymax, radNeg, radPos, mkKF, rcol, orZero, FVal.fabs, fgt, FVal.flt]
    rw [radarValue, hmv]
    norm_num [radNeg, mkKF, rcol, orZero, FVal.fdiv]
  · simp [FVal.fle]

/-- C5 amended.  Radar normalization over finite metric values: each
company's axis value is its metric value divided by the maximum absolute
value of that metric across the selected companies (1 when all values are
zero), and lies in [-1,1] — negative values stay negative in the computed
data (the chart's radial-axis range [0,1.1] merely crops them from view). -/
theorem radar_normalization (latest : List KFRow) (d : KFRow) (m : RMetric) (qd : ℚ)
    (hd : d ∈ latest) (hfin : ∀ e ∈ latest, (rcol m e).isFinite = true)
    (hqd : rcol m d = FVal.num qd) :
    radarValue latest d m =
      FVal.num (qd /
        (if 0 < maxAbsQ (finVals latest m) then maxAbsQ (finVals latest m) else 1)) ∧
    |qd / (if 0 < maxAbsQ (finVals latest m) then maxAbsQ (finVals latest m) else 1)| ≤ 1 := by
  have hne : latest ≠ [] := by
    intro h; rw [h] at hd; exact absurd hd (List.not_mem_nil _)
  have hmem : qd ∈ finVals latest m :=
    List.mem_filterMap.mpr ⟨d, hd, by rw [hqd]⟩
  have hub : |qd| ≤ maxAbsQ (finVals latest m) := le_maxAbsQ hmem
  set M := maxAbsQ (finVals latest m) with hM
  have hDpos : (0 : ℚ) < (if 0 < M then M else 1) := by
    by_cases h : 0 < M <;> simp [h]
  constructor
  · rw [radarValue, orZero_eq, hqd, maxVal_finite latest m hne hfin, ← hM, FVal.fdiv]
    simp [ne_of_gt hDpos]
  · by_cases h : 0 < M
    · rw [if_pos h, abs_div, abs_of_pos h]
      exact div_le_one_of_le hub (le_of_lt h)
    · have hz : M = 0 := le_antisymm (not_lt.mp h) (maxAbsQ_nonneg _)
      have : qd = 0 := abs_nonpos_iff.mp (hz ▸ hub)
      simp [if_neg h, this]

/-- Witness for C5 at the two-company instance. -/
theorem radar_normalization_witness :
    radarValue [radNeg, radPos] radNeg RMetric.rOpCF =
      FVal.num ((-10000000000 : ℚ) /
        (if 0 < maxAbsQ (finVals [radNeg, radPos] RMetric.rOpCF)
         then maxAbsQ (finVals [radNeg, radPos] RMetric.rOpCF) else 1)) ∧
    |(-10000000000 : ℚ) /
        (if 0 < maxAbsQ (finVals [radNeg, radPos] RMetric.rOpCF)
         then maxAbsQ (finVals [radNeg, radPos] RMetric.rOpCF) else 1)| ≤ 1 :=
  radar_normalization [radNeg, radPos] radNeg RMetric.rOpCF (-10000000000)
    (by decide) (by decide) (by decide)

/-! Claim C6: text search. -/

theorem lexLt_asymm {a b : List Char} (h : lexLt a b = true) : lexLt b a = false := by
  cases hba : lexLt b a with
  | false => rfl
  | true => exact absurd (lexLt_trans h hba) (by simp [lexLt_irrefl])

theorem nil_mem_suffixes : ∀ t : List Char, [] ∈ suffixes t
  | [] => List.mem_singleton.mpr rfl
  | _ :: cs => List.mem_cons_of_mem _ (nil_mem_suffixes cs)

theorem likeM_pct_end (t : List Char) : likeM ['%'] t = true := by
  change (suffixes t).any (likeM []) = true
  exact List.any_eq_true.mpr ⟨[], nil_mem_suffixes t, rfl⟩

theorem likeM_append_pct : ∀ (k t : List Char),
    (∀ c ∈ k, c ≠ '%' ∧ c ≠ '_') →
    likeM (k ++ ['%']) t = (k.map Char.toLower).isPrefixOf (t.map Char.toLower)
  | [], t, _ => by simp [likeM_pct_end]
  | c :: k, t, hw => by
    obtain ⟨hc1, hc2⟩ := hw c (List.mem_cons_self _ _)
    rw [List.cons_append]
    cases t with
    | nil =>
        rw [show likeM (c :: (k ++ ['%'])) [] =
          (if c = '%' then (suffixes []).any (likeM (k ++ ['%'])) else false) from rfl]
        rw [if_neg hc1]
        simp
    | cons d ds =>
        rw [show likeM (c :: (k ++ ['%'])) (d :: ds) =
          (if c = '%' then (suffixes (d :: ds)).any (likeM (k ++ ['%']))
           else if c = '_' then likeM (k ++ ['%']) ds
           else c.toLower == d.toLower && likeM (k ++ ['%']) ds) from rfl]
        rw [if_neg hc1, if_neg hc2, List.map_cons, List.map_cons, List.isPrefixOf_cons₂,
          likeM_append_pct k ds (fun e he => hw e (List.mem_cons_of_mem _ he))]

theorem hasSubstr_eq_any : ∀ (kw t : List Char),
    hasSubstr kw t = (suffixes t).any (fun s => kw.isPrefixOf s)
  | kw, [] => by
    cases kw <;> simp [hasSubstr, suffixes, List.isPrefixOf]
  | kw, c :: cs => by
    simp only [hasSubstr, suffixes, List.any_cons, hasSubstr_eq_any kw cs]

theorem suffixes_map (f : Char → Char) : ∀ t : List Char,
    suffixes (t.map f) = (suffixes t).map (List.map f)
  | [] => rfl
  | c :: cs => by simp [suffixes, suffixes_map f cs]

theorem likeM_substring (k t : String) (hw : noWild k = true) :
    likeM (likePattern k) t.data = ciContains t k := by
  have hchars : ∀ c ∈ k.data, c ≠ '%' ∧ c ≠ '_' := by
    intro c hc
    have := List.all_eq_true.mp hw c hc
    constructor <;> intro h <;> simp [h] at this
  rw [show likeM (likePattern k) t.data =
    (suffixes t.data).any (likeM (k.data ++ ['%'])) from rfl]
  rw [ciContains, lowers, lowers, hasSubstr_eq_any, suffixes_map]
  rw [Bool.eq_iff_iff]
  simp only [List.any_eq_true, List.mem_map]
  constructor
  · rintro ⟨s, hs, hlike⟩
    exact ⟨s.map Char.toLower, ⟨s, hs, rfl⟩, by rw [← likeM_append_pct k.data s hchars]; exact hlike⟩
  · rintro ⟨ls, ⟨s, hs, rfl⟩, hpre⟩
    exact ⟨s, hs, by rw [likeM_append_pct k.data s hchars]; exact hpre⟩

theorem tbRel_total (a b : TBRow) : tbRel a b ∨ tbRel b a := by
  unfold tbRel
  simp only [Bool.or_eq_true, Bool.and_eq_true, beq_iff_eq]
  by_cases h1 : strLt b.period_end a.period_end = true
  · exact Or.inl (Or.inl h1)
  · by_cases h2 : strLt a.period_end b.period_end = true
    · exact Or.inr (Or.inl h2)
    · have hf1 : lexLt b.period_end.data a.period_end.data = false := by
        cases hh : strLt b.period_end a.period_end
        · exact hh
        · exact absurd hh h1
      have hf2 : lexLt a.period_end.data b.period_end.data = false := by
        cases hh : strLt a.period_end b.period_end
        · exact hh
        · exact absurd hh h2
      have heq : a.period_end = b.period_end := String.ext (lexLt_antisymm hf2 hf1)
      by_cases h3 : lexLt b.sec_code.data a.sec_code.data = true
      · exact Or.inr (Or.inr ⟨heq.symm, by simp [strLe, lexLt_asymm h3]⟩)
      · have : lexLt b.sec_code.data a.sec_code.data = false := by
          cases hh : lexLt b.sec_code.data a.sec_code.data
          · rfl
          · exact absurd hh h3
        exact Or.inl (Or.inr ⟨heq, by simp [strLe, this]⟩)

theorem tbRel_trans {a b c : TBRow} (hab : tbRel a b) (hbc : tbRel b c) : tbRel a c := by
  unfold tbRel at hab hbc ⊢
  simp only [Bool.or_eq_true, Bool.and_eq_true, beq_iff_eq] at hab hbc ⊢
  rcases hab with hab | ⟨habe, habs⟩ <;> rcases hbc with hbc | ⟨hbce, hbcs⟩
  · exact Or.inl (lexLt_trans hbc hab)
  · exact Or.inl (hbce ▸ hab)
  · exact Or.inl (habe ▸ hbc)
  · refine Or.inr ⟨habe.trans hbce, ?_⟩
    simp only [strLe, Bool.not_eq_eq_eq_not, Bool.not_true] at habs hbcs ⊢
    exact lexNotLt_trans hbcs habs

/-- Counterexample to C6 as stated: the keyword `a%b` (containing the SQL
`LIKE` wildcard `%`) matches the row whose text is `aXb`, which does not
contain `a%b` as a (case-insensitive) substring — the engine performs LIKE
pattern matching, not literal substring matching. -/
theorem text_search_wildcard :
    search_text_blocks [wildTB] none none (some "a%b") none 50 = [wildTB] ∧
    ciContains wildTB.text_content "a%b" = false := by decide

/-- C6 amended.  Text search postcondition: at most `limit` rows; every
returned row comes from the store and satisfies all provided (truthy)
filters conjointly, where the keyword filter is SQLite `LIKE '%keyword%'`
matching (ASCII-case-insensitive, `%`/`_` inside the keyword act as
wildcards); with no filters it is a browse-all query subject to the limit;
results are ordered by `period_end` descending then `sec_code`; and for
keywords free of wildcard characters the LIKE filter coincides with
case-insensitive substring containment. -/
theorem text_search_postcondition (store : List TBRow) (sec sect kw pe : Option String)
    (limit : Nat) :
    (search_text_blocks store sec sect kw pe limit).length ≤ limit ∧
    (∀ r ∈ search_text_blocks store sec sect kw pe limit,
        r ∈ store ∧ tbMatches sec sect kw pe r = true) ∧
    List.Pairwise tbRel (search_text_blocks store sec sect kw pe limit) ∧
    (sec = none → sect = none → kw = none → pe = none →
      search_text_blocks store sec sect kw pe limit =
        (store.insertionSort tbRel).take limit) ∧
    (∀ (k t : String), noWild k = true →
      likeM (likePattern k) t.data = ciContains t k) := by
  refine ⟨?_, ?_, ?_, ?_, fun k t hw => likeM_substring k t hw⟩
  · exact List.length_take_le _ _
  · intro r hr
    have hr' := List.mem_of_mem_take hr
    rw [List.mem_insertionSort] at hr'
    exact ⟨(List.mem_filter.mp hr').1, (List.mem_filter.mp hr').2⟩
  · have hs : List.Pairwise tbRel
        ((store.filter (tbMatches sec sect kw pe)).insertionSort tbRel) :=
      @List.sorted_insertionSort TBRow tbRel _ ⟨tbRel_total⟩ ⟨fun _ _ _ => tbRel_trans⟩ _
    exact List.Pairwise.sublist (List.take_sublist _ _) hs
  · rintro rfl rfl rfl rfl
    rw [search_text_blocks]
    have : store.filter (tbMatches none none none none) = store := by
      have : ∀ r ∈ store, tbMatches none none none none r = true := by
        intro r _; rfl
      simp [List.filter_congr this]
    rw [this]

/-! Claim C7: the variable-length IN clause. -/

theorem countQ_append (a b : String) : countQ (a ++ b) = countQ a + countQ b := by
  simp [countQ, String.data_append, List.count_append]

theorem countQ_go : ∀ (l : List String) (acc sep : String),
    countQ (String.intercalate.go acc sep l) =
      countQ acc + (l.map countQ).sum + countQ sep * l.length
  | [], acc, sep => by simp [String.intercalate.go]
  | a :: as, acc, sep => by
    rw [String.intercalate.go, countQ_go as (acc ++ sep ++ a) sep, countQ_append,
      countQ_append]
    simp [List.length_cons]
    ring

theorem countQ_intercalate_sep0 (sep : String) (hsep : countQ sep = 0) :
    ∀ l : List String, countQ (String.intercalate sep l) = (l.map countQ).sum
  | [] => by rfl
  | a :: as => by
    rw [String.intercalate, countQ_go as a sep, hsep]
    simp

theorem countQ_multiFinSql (n : Nat) : countQ (multiFinSql n) = n := by
  rw [multiFinSql, countQ_append, countQ_append,
    countQ_intercalate_sep0 "," (by rfl)]
  have hmap : (List.replicate n "?").map countQ = List.replicate n 1 := by
    rw [List.map_replicate]
    rfl
  rw [hmap, List.sum_replicate]
  show countQ "SELECT * FROM v_key_financials WHERE sec_code IN (" +
      n * 1 + countQ ") ORDER BY sec_code, period_end DESC" = n
  rw [show countQ "SELECT * FROM v_key_financials WHERE sec_code IN (" = 0 from rfl,
    show countQ ") ORDER BY sec_code, period_end DESC" = 0 from rfl]
  omega

/-- C7.  Multi-company fetch: the empty identifier list returns an empty
result and issues no query; a non-empty list issues one query whose bound
parameters are exactly the identifiers, with one `?` placeholder per
identifier in the SQL text. -/
theorem multi_company_empty_list (store : List KFRow) (codes : List String) :
    (codes = [] → get_multi_company_financials store codes = (none, [])) ∧
    (codes ≠ [] → ∃ q : SqlQuery,
      (get_multi_company_financials store codes).1 = some q ∧
      q.params = codes ∧ countQ q.sql = codes.length) := by
  constructor
  · rintro rfl; rfl
  · intro h
    rw [get_multi_company_financials, if_neg (by simpa using h)]
    exact ⟨⟨multiFinSql codes.length, codes⟩, rfl, rfl, countQ_multiFinSql _⟩

/-! Claim C8: optional tables degrade to empty results. -/

/-- C8.  Optional-feature degradation: with the `financials` table absent
`get_financial_details` returns an empty result instead of propagating the
error; `get_db_stats` turns an absent `text_blocks` table, absent
`key_financials`/`financials` tables, or absent status columns into the
zero fallback of the corresponding statistic; and in each case only that
feature's entry changes — the record-update equalities say the remaining
statistics are exactly those of the unimpaired store. -/
theorem optional_feature_degradation (s : Store) (sec : String) (ic : Nat) :
    (s.financials = none → get_financial_details s sec ic = []) ∧
    (s.text_blocks = none → (get_db_stats s).text_blocks = 0) ∧
    (s.key_financials = none → s.financials = none →
      (get_db_stats s).financial_records = 0) ∧
    (s.hasParseStatus = false → (get_db_stats s).parsed_docs = 0) ∧
    (s.hasDlStatus = false → (get_db_stats s).downloaded_docs = 0) ∧
    (get_db_stats { s with text_blocks := none } =
      { get_db_stats s with text_blocks := 0 }) ∧
    (get_db_stats { s with key_financials := none, financials := none } =
      { get_db_stats s with financial_records := 0 }) ∧
    (get_db_stats { s with hasParseStatus := false } =
      { get_db_stats s with parsed_docs := 0 }) ∧
    (get_db_stats { s with hasDlStatus := false } =
      { get_db_stats s with downloaded_docs := 0 }) ∧
    (get_financial_details { s with financials := none } sec ic = []) := by
  refine ⟨?_, ?_, ?_, ?_, ?_, ?_, ?_, ?_, ?_, ?_⟩
  · intro h; simp [get_financial_details, h]
  · intro h; simp [get_db_stats, h]
  · intro h1 h2; simp [get_db_stats, h1, h2]
  · intro h; simp [get_db_stats, h]
  · intro h; simp [get_db_stats, h]
  · rfl
  · rfl
  · rfl
  · rfl
  · rfl

/-! Claim C9: parameterization noninterference. -/

theorem optCondStr_truthy (o : Option String) (c : String) :
    optCondStr o c = if truthy o then [c] else [] := by
  cases o with
  | none => rfl
  | some s => cases hs : s.isEmpty <;> simp [optCondStr, truthy, hs]

theorem optParamVal_length (o : Option String) (w : String → String) :
    (optParamVal o w).length = if truthy o then 1 else 0 := by
  cases o with
  | none => rfl
  | some s => cases hs : s.isEmpty <;> simp [optParamVal, truthy, hs]

theorem stb_counts (sec sect kw pe : Option String) :
    (stbParams sec sect kw pe).length = (stbConds sec sect kw pe).length ∧
    countQ (stbSql sec sect kw pe) = (stbParams sec sect kw pe).length + 1 := by
  constructor
  · simp only [stbParams, stbConds, List.length_append, optParamVal_length,
      optCondStr_truthy]
    cases truthy sec <;> cases truthy sect <;> cases truthy kw <;> cases truthy pe <;> simp
  · simp only [stbSql, stbConds, stbParams, List.length_append, optParamVal_length,
      optCondStr_truthy]
    cases h1 : truthy sec <;> cases h2 : truthy sect <;> cases h3 : truthy kw <;>
      cases h4 : truthy pe <;> rfl

/-- C9.  Parameterization noninterference: the SQL text `search_text_blocks`
generates depends only on WHICH filters are provided (truthy), never on
their values, with one bound parameter per generated condition and one `?`
per bound parameter plus the bound `LIMIT`; `search_companies` sends one
constant SQL text for every non-blank keyword, with the keyword appearing
only in the two bound parameters. -/
theorem sql_parameterization_noninterference
    (sec1 sect1 kw1 pe1 sec2 sect2 kw2 pe2 : Option String)
    (h1 : truthy sec1 = truthy sec2) (h2 : truthy sect1 = truthy sect2)
    (h3 : truthy kw1 = truthy kw2) (h4 : truthy pe1 = truthy pe2) :
    stbSql sec1 sect1 kw1 pe1 = stbSql sec2 sect2 kw2 pe2 ∧
    (stbParams sec1 sect1 kw1 pe1).length = (stbConds sec1 sect1 kw1 pe1).length ∧
    countQ (stbSql sec1 sect1 kw1 pe1) = (stbParams sec1 sect1 kw1 pe1).length + 1 ∧
    (∀ w1 w2 : String, w1.trim.isEmpty = false → w2.trim.isEmpty = false →
      (search_companies_query w1).map SqlQuery.sql =
        (search_companies_query w2).map SqlQuery.sql ∧
      search_companies_query w1 =
        some ⟨scSql, ["%" ++ w1.trim ++ "%", "%" ++ w1.trim ++ "%"]⟩ ∧
      countQ scSql = 2) := by
  refine ⟨?_, (stb_counts _ _ _ _).1, (stb_counts _ _ _ _).2, ?_⟩
  · simp only [stbSql, stbConds, optCondStr_truthy, h1, h2, h3, h4]
  · intro w1 w2 hw1 hw2
    refine ⟨?_, ?_, rfl⟩
    · rw [search_companies_query, search_companies_query, if_neg (by simp [hw1]),
        if_neg (by simp [hw2])]
      rfl
    · rw [search_companies_query, if_neg (by simp [hw1])]

/-- Witness for C9: two filter assignments providing the same filters
(company code and keyword) with different values. -/
theorem sql_parameterization_noninterference_witness :
    stbSql (some "7203") none (some "risk") none =
      stbSql (some "6758") none (some "supply") none ∧
    (stbParams (some "7203") none (some "risk") none).length =
      (stbConds (some "7203") none (some "risk") none).length ∧
    countQ (stbSql (some "7203") none (some "risk") none) =
      (stbParams (some "7203") none (some "risk") none).length + 1 ∧
    (∀ w1 w2 : String, w1.trim.isEmpty = false → w2.trim.isEmpty = false →
      (search_companies_query w1).map SqlQuery.sql =
        (search_companies_query w2).map SqlQuery.sql ∧
      search_companies_query w1 =
        some ⟨scSql, ["%" ++ w1.trim ++ "%", "%" ++ w1.trim ++ "%"]⟩ ∧
      countQ scSql = 2) :=
  sql_parameterization_noninterference (some "7203") none (some "risk") none
    (some "6758") none (some "supply") none rfl rfl rfl rfl

end EdinetViewer
